import Mathlib

/-!
# WebWise (`src/app.py`) — shallow embedding and verification

This file embeds, in Lean 4, the core logic of the WebWise website
question-answering application (`src/app.py`) and proves properties of that
embedding corresponding to the frozen claims about the program.

Modelling conventions:
* Pure Python string manipulation is translated into executable Lean functions
  over `String` / `List Char`.
* Network effects (the article reader, HTTP fetches, image downloads) are made
  explicit: each embedded function takes the outcome of the corresponding
  network interaction as a parameter (for example an `Except` value or a
  response structure), and computes exactly what the Python code computes from
  that outcome.
* Python exceptions are modelled with `Except` / `Option`.
* The MD5 hash used only to derive cache filenames is taken as an opaque
  function parameter `md5hex : String → String`; no claim depends on hash
  values, only on how the code composes them.
-/

/-! ## Basic string helpers -/

/-- Python whitespace characters for `\s`, `str.split()` and `str.strip()`
(the ASCII subset, which is what the inputs here contain). -/
def isPySpace (c : Char) : Bool :=
  c = ' ' || c = '\t' || c = '\n' || c = '\r' || c = '\x0b' || c = '\x0c'

/-- Does `pat` occur as a contiguous sublist of the second argument?
Mirrors Python's `pat in s` substring test (true for the empty pattern). -/
def hasSubList (pat : List Char) : List Char → Bool
  | [] => pat.isEmpty
  | l@(_ :: rest) => pat.isPrefixOf l || hasSubList pat rest

/-- Python's `needle in haystack` substring test on strings. -/
def strContains (haystack needle : String) : Bool :=
  hasSubList needle.toList haystack.toList

/-- Python `str.lower()` (character-wise lowercasing; the inputs here are
ASCII, where this agrees with Python). -/
def strLower (s : String) : String :=
  String.mk (s.toList.map Char.toLower)

/-- Python `str.startswith(pre)`. -/
def strStartsWith (s pre : String) : Bool :=
  pre.toList.isPrefixOf s.toList

/-- Collapse every run of two or more consecutive copies of `c` into one,
modelling `re.sub(c + '+', c, text)` for a single character `c`. -/
def collapseRuns (c : Char) : List Char → List Char
  | [] => []
  | [a] => [a]
  | a :: b :: rest =>
    if a = c && b = c then collapseRuns c (b :: rest)
    else a :: collapseRuns c (b :: rest)

/-- Python `str.strip()`: drop whitespace from both ends. -/
def pyStrip (l : List Char) : List Char :=
  ((l.dropWhile isPySpace).reverse.dropWhile isPySpace).reverse

/-- `clean_text` from `src/app.py`: collapse newline runs, collapse space
runs, then strip surrounding whitespace. -/
def clean_text (s : String) : String :=
  String.mk (pyStrip (collapseRuns ' ' (collapseRuns '\n' s.toList)))

/-! ## URL parsing (`urllib.parse.urlparse` as used by the program) -/

/-- Characters allowed after the first letter of a URL scheme. -/
def isSchemeChar (c : Char) : Bool :=
  c.isAlphanum || c = '+' || c = '-' || c = '.'

/-- Split a URL at its scheme, as `urlparse` does: the text before the first
`':'` is a scheme if it is nonempty, starts with a letter, and consists of
scheme characters. Returns the (lowercased) scheme and the rest after `':'`. -/
def splitScheme (l : List Char) : Option (List Char × List Char) :=
  let pre := l.takeWhile (· ≠ ':')
  if pre.length < l.length then
    match pre with
    | [] => none
    | c :: cs =>
      if c.isAlpha && cs.all isSchemeChar then
        some ((c :: cs).map Char.toLower, l.drop (pre.length + 1))
      else none
  else none

/-- The netloc part of what follows the scheme: after a leading `"//"`, the
characters up to the first `'/'`, `'?'` or `'#'`. -/
def netlocOf (rest : List Char) : List Char :=
  if ['/', '/'].isPrefixOf rest then
    (rest.drop 2).takeWhile (fun c => c ≠ '/' && c ≠ '?' && c ≠ '#')
  else []

/-- `get_domain` from `src/app.py`: `urlparse(url).netloc`. -/
def get_domain (url : String) : String :=
  match splitScheme url.toList with
  | some (_, rest) => String.mk (netlocOf rest)
  | none => String.mk (netlocOf url.toList)

/-- `is_valid_url` from `src/app.py`: `urlparse` yields a nonempty scheme and
a nonempty netloc. -/
def is_valid_url (url : String) : Bool :=
  match splitScheme url.toList with
  | some (_, rest) => !(netlocOf rest).isEmpty
  | none => false

/-! ## Section labelling of chunks (url submit handler, lines 864–878) -/

/-- The section label assigned to an indexed chunk: the first marker string
found in the chunk text, in the fixed order tried by the code. -/
def sectionOf (chunk : String) : String :=
  if strContains chunk "TITLE:" then "title"
  else if strContains chunk "DESCRIPTION:" then "description"
  else if strContains chunk "HEADINGS:" then "headings"
  else if strContains chunk "MAIN CONTENT:" then "main_content"
  else if strContains chunk "TABLES:" then "tables"
  else if strContains chunk "LISTS:" then "lists"
  else "unknown"

/-! ## Content extraction (`extract_website_content`, lines 64–209)

The article reader (`newspaper.Article`) and the two `requests.get` round
trips are network interactions; their outcomes are parameters of the model.
The metadata dictionary is elided: the claims concern the returned content
string and the error behaviour. -/

/-- The result of a successful `Article.download()` + `Article.parse()`:
the title and raw article text the reader produced. -/
structure ArticleData where
  title : String
  text : String
deriving DecidableEq, Repr

/-- Outcome of the article-reader strategy. `articleErr` is an
`ArticleException`; `otherErr` is any other exception raised in the primary
block (caught by the final `except Exception` and re-raised). -/
inductive ArticleOutcome where
  | parsed (a : ArticleData)
  | articleErr (msg : String)
  | otherErr (msg : String)
deriving DecidableEq, Repr

/-- Data harvested from a fetched, parsed page: the fields the code reads
from the BeautifulSoup tree (after decomposing script/style/… tags).
`headings` are the already-formatted `"H1: …"` lines, `tables`/`lists` the
already-rendered blocks; `titleTag` is `soup.title.string`, `body` the raw
body text (`soup.body.get_text()`) when a body element exists. -/
structure PageData where
  headings : List String
  description : String
  keywords : String
  tables : List String
  lists : List String
  titleTag : Option String
  body : Option String
deriving DecidableEq, Repr

/-- Outcome of one `requests.get` fetch-and-parse round trip. -/
inductive FetchOutcome where
  | ok (p : PageData)
  | err (msg : String)
deriving DecidableEq, Repr

/-- The enriched content block assembled on the primary path
(lines 162–174): each section is emitted only when nonempty. -/
def enhancedContent (title description : String) (headings : List String)
    (mainText : String) (tables lists : List String) : String :=
  (if title ≠ "" then "TITLE: " ++ title ++ "\n\n" else "")
  ++ (if description ≠ "" then "DESCRIPTION: " ++ description ++ "\n\n" else "")
  ++ (if headings ≠ [] then "HEADINGS:\n" ++ String.intercalate "\n" headings ++ "\n\n" else "")
  ++ (if mainText ≠ "" then "MAIN CONTENT:\n" ++ mainText ++ "\n\n" else "")
  ++ (if tables ≠ [] then "TABLES:\n" ++ String.intercalate "\n\n" tables ++ "\n\n" else "")
  ++ (if lists ≠ [] then "LISTS:\n" ++ String.intercalate "\n\n" lists ++ "\n\n" else "")

/-- Content returned when the article reader succeeded but the enrichment
fetch failed (line 179). -/
def degradedContent (title mainText : String) : String :=
  "TITLE: " ++ title ++ "\n\nMAIN CONTENT:\n" ++ mainText

/-- Content returned by the raw-markup fallback after an
`ArticleException` (line 203). -/
def fallbackContent (title body : String) : String :=
  "TITLE: " ++ title ++ "\n\nMAIN CONTENT:\n" ++ body

/-- `extract_website_content` from `src/app.py`, with the outcomes of the
article reader (`art`), the enrichment fetch (`enrich`) and the fallback
fetch (`fallbackFetch`) passed in explicitly. Returns the content string, or
the message of the exception the Python code raises. -/
def extract_website_content (url : String) (art : ArticleOutcome)
    (enrich fallbackFetch : FetchOutcome) : Except String String :=
  if !is_valid_url url then .error ("Invalid URL: " ++ url)
  else
    match art with
    | .parsed a =>
      let mainText := clean_text a.text
      match enrich with
      | .ok p =>
        .ok (enhancedContent a.title p.description p.headings mainText p.tables p.lists)
      | .err _ => .ok (degradedContent a.title mainText)
    | .articleErr _ =>
      match fallbackFetch with
      | .ok p =>
        .ok (fallbackContent (p.titleTag.getD "Unknown Title")
              ((p.body.map clean_text).getD ""))
      | .err msg => .error ("Failed to extract content from " ++ url ++ ": " ++ msg)
    | .otherErr msg => .error ("Failed to extract content from " ++ url ++ ": " ++ msg)

/-! ## Image pipeline (`generate_image_filename`, `download_and_save_image`,
`extract_images_from_website`, `find_relevant_images`, lines 211–373) -/

/-- The dictionary produced by `extract_image_info` for an `<img>` element:
the resolved absolute image URL and its textual context. `extract_image_info`
itself walks the BeautifulSoup DOM; its result is taken as given data. -/
structure ImageInfo where
  url : String
  altText : String
  caption : String
  heading : String
  surroundingText : String
deriving DecidableEq, Repr

/-- The relevant parts of the HTTP response for one image download:
whether the request succeeded (`raise_for_status` included), the
`Content-Type` header, the parsed `Content-Length` header when present, and
the pixel dimensions PIL reads from the written file (`none` when PIL fails
to open it). -/
structure ImgResponse where
  ok : Bool
  contentType : String
  contentLength : Option Int
  dims : Option (Nat × Nat)
deriving DecidableEq, Repr

/-- The extension `generate_image_filename` derives from the image URL's
path: `os.path.splitext` on the basename, lowercased. -/
def splitextExt (path : List Char) : List Char :=
  let bn := (path.reverse.takeWhile (· ≠ '/')).reverse
  let revExt := bn.reverse.takeWhile (· ≠ '.')
  if revExt.length = bn.length then []
  else
    let stem := bn.take (bn.length - revExt.length - 1)
    if stem.all (· = '.') then [] else bn.drop stem.length

/-- The path component of a URL: what follows the netloc (or the scheme,
when there is no `//`), up to the first `'?'` or `'#'`. -/
def urlPath (url : String) : List Char :=
  let rest := match splitScheme url.toList with
    | some (_, r) => r
    | none => url.toList
  let afterNetloc :=
    if ['/', '/'].isPrefixOf rest then
      (rest.drop 2).dropWhile (fun c => c ≠ '/' && c ≠ '?' && c ≠ '#')
    else rest
  afterNetloc.takeWhile (fun c => c ≠ '?' && c ≠ '#')

/-- `generate_image_filename` from `src/app.py`, parametric in the MD5 hex
digest function: 10 hex chars of the page-URL hash, 8 of the image-URL hash,
and a normalized extension (default `.jpg`). -/
def generate_image_filename (md5hex : String → String) (url imageUrl : String) : String :=
  let base := (md5hex url).take 10
  let imgHash := (md5hex imageUrl).take 8
  let ext := String.mk ((splitextExt (urlPath imageUrl)).map Char.toLower)
  let ext :=
    if ext = "" || !([".jpg", ".jpeg", ".png", ".gif", ".webp"].contains ext) then ".jpg"
    else ext
  base ++ "_" ++ imgHash ++ ext

/-- `download_and_save_image` from `src/app.py`, with the HTTP response
passed in. Returns the cache path on success; any rejected or failed
candidate yields `none` (the written file is deleted on validation
failure). A missing `Content-Length` header is read as `0`
(`response.headers.get('Content-Length', 0)`). -/
def download_and_save_image (resp : ImgResponse) (filename : String) : Option String :=
  if !resp.ok then none
  else if !(strStartsWith resp.contentType "image/") then none
  else if resp.contentLength.getD 0 > 5 * 1024 * 1024 then none
  else
    match resp.dims with
    | none => none
    | some (w, h) =>
      if w < 50 || h < 50 || w > 3000 || h > 3000 then none
      else some ("image_cache/" ++ filename)

/-- One `<img>` element as the pipeline sees it: the outcome of
`extract_image_info` for it, and the download response its URL would
produce. -/
structure ImgElem where
  info : Option ImageInfo
  resp : ImgResponse
deriving DecidableEq, Repr

/-- An image record accepted into `metadata['images']`: the extracted info
plus the `local_path` and `description` fields the loop adds. -/
structure SavedImage where
  info : ImageInfo
  localPath : String
  description : String
deriving DecidableEq, Repr

/-- The `description` assigned to an accepted image (lines 331–336):
first nonempty of caption, alt text, heading, domain fallback. -/
def imageDescription (info : ImageInfo) (domain : String) : String :=
  if info.caption ≠ "" then info.caption
  else if info.altText ≠ "" then info.altText
  else if info.heading ≠ "" then info.heading
  else "Image from " ++ domain

/-- The disposition of a single `<img>` element in the loop body of
`extract_images_from_website`: skipped, or accepted as a `SavedImage`. -/
def acceptElem (md5hex : String → String) (url : String) (e : ImgElem) : Option SavedImage :=
  match e.info with
  | none => none
  | some info =>
    match download_and_save_image e.resp (generate_image_filename md5hex url info.url) with
    | none => none
    | some path => some ⟨info, path, imageDescription info (get_domain url)⟩

/-- The loop of `extract_images_from_website`: `count` accepted so far,
`break` once 10 have been accepted. -/
def extractImagesGo (md5hex : String → String) (url : String) :
    List ImgElem → Nat → List SavedImage
  | [], _ => []
  | e :: rest, count =>
    if count ≥ 10 then []
    else
      match acceptElem md5hex url e with
      | none => extractImagesGo md5hex url rest count
      | some s => s :: extractImagesGo md5hex url rest (count + 1)

/-- `extract_images_from_website` from `src/app.py`. -/
def extract_images_from_website (md5hex : String → String) (url : String)
    (elems : List ImgElem) : List SavedImage :=
  extractImagesGo md5hex url elems 0

/-! ## Image relevance ranking (`find_relevant_images`, lines 342–373) -/

/-- `str.split()` with no argument: split on whitespace runs, discarding
empty pieces. `acc` holds the reversed current word. -/
def splitWordsAux (acc : List Char) : List Char → List String
  | [] => if acc.isEmpty then [] else [String.mk acc.reverse]
  | c :: rest =>
    if isPySpace c then
      if acc.isEmpty then splitWordsAux [] rest
      else String.mk acc.reverse :: splitWordsAux [] rest
    else splitWordsAux (c :: acc) rest

/-- Python `set(s.lower().split())`: lowercase, split on whitespace runs,
deduplicate. The list order is irrelevant to the counts taken of it. -/
def wordSet (s : String) : List String :=
  (splitWordsAux [] (strLower s).toList).dedup

/-- `len(queryTerms.intersection(set(t.lower().split())))`: the number of
distinct query words also occurring in `t`. -/
def overlapCount (queryTerms : List String) (t : String) : Nat :=
  (queryTerms.filter (fun w => (wordSet t).contains w)).length

/-- The relevance score of one image against a query (lines 351–367):
weighted word overlaps, each term guarded by the field being nonempty
exactly as the Python truthiness tests do. -/
def scoreImage (q : String) (img : SavedImage) : Nat :=
  let qt := wordSet q
  (if img.info.altText ≠ "" then 2 * overlapCount qt img.info.altText else 0)
  + (if img.info.caption ≠ "" then 2 * overlapCount qt img.info.caption else 0)
  + (if img.info.heading ≠ "" then 3 * overlapCount qt img.info.heading else 0)
  + (if img.info.surroundingText ≠ "" then overlapCount qt img.info.surroundingText else 0)

/-- Stable insertion (from the right) for a descending sort by score:
`p` goes before the first element whose score it reaches. Python's
`list.sort(key=…, reverse=True)` is a stable descending sort; any stable
descending sort computes the same list, and this one is stable because a
later-inserted (earlier-in-the-original) element passes an equal-scored one
only when strictly greater. -/
def insertByScore (p : SavedImage × Nat) : List (SavedImage × Nat) → List (SavedImage × Nat)
  | [] => [p]
  | q :: rest => if p.2 ≥ q.2 then p :: q :: rest else q :: insertByScore p rest

/-- Stable descending sort by score, modelling
`relevant_images.sort(key=lambda x: x[1], reverse=True)`. -/
def sortByScoreDesc : List (SavedImage × Nat) → List (SavedImage × Nat)
  | [] => []
  | p :: rest => insertByScore p (sortByScoreDesc rest)

/-- The scored-and-filtered list the loop of `find_relevant_images` builds:
each image paired with its score, keeping only positive scores. -/
def scoredImages (q : String) (imgs : List SavedImage) : List (SavedImage × Nat) :=
  (imgs.map (fun i => (i, scoreImage q i))).filter (fun p => p.2 > 0)

/-- `find_relevant_images` from `src/app.py`. The Python default for
`max_images` is 3 (and the chat handler calls it with that default). -/
def find_relevant_images (q : String) (imgs : List SavedImage) (maxImages : Nat) :
    List SavedImage :=
  ((sortByScoreDesc (scoredImages q imgs)).take maxImages).map (·.1)

/-! ## Query rewriting (chat handler, lines 1035–1049) -/

/-- Summary-intent keywords (line 1037). -/
def summaryTerms : List String :=
  ["summary", "summarize", "what is this website about", "overview"]

/-- Specific-topic keywords (line 1040). -/
def specificTerms : List String := ["what does", "how does", "tell me about", "specific"]

/-- Image-intent keywords (lines 1046–1047). -/
def imageTerms : List String :=
  ["image", "picture", "photo", "figure", "diagram", "graph", "show me", "visual"]

/-- `any(term in ql for term in terms)`. -/
def matchesAny (ql : String) (terms : List String) : Bool :=
  terms.any (fun t => strContains ql t)

/-! The topic extraction on the specific-topic branch is
`re.search(r"about\s+(.+?)(?:\s+in|\s+on|\s+at|\s+\?|$)", ql)`; the next few
definitions implement that one pattern with Python's backtracking priorities:
leftmost start position, greedy `\s+`, lazy `(.+?)`, and `$` matching at the
end of the string or before a final newline. -/

/-- Length of the leading whitespace run. -/
def wsRun : List Char → Nat
  | [] => 0
  | c :: rest => if isPySpace c then wsRun rest + 1 else 0

/-- Does the pattern tail `(?:\s+in|\s+on|\s+at|\s+\?|$)` match at the start
of `l`?  Since none of the literals start with whitespace, each `\s+`
alternative can only consume the whole leading whitespace run. -/
def tailDelim (l : List Char) : Bool :=
  let m := wsRun l
  let rest := l.drop m
  (decide (m ≥ 1) &&
    (['i', 'n'].isPrefixOf rest || ['o', 'n'].isPrefixOf rest ||
     ['a', 't'].isPrefixOf rest || ['?'].isPrefixOf rest))
  || l.isEmpty || l = ['\n']

/-- Lazy `(.+?)` followed by the tail: try content lengths ascending;
`.` does not match a newline. Returns the captured group. -/
def lazyContent (acc : List Char) : List Char → Option (List Char)
  | [] => none
  | c :: rest =>
    if c = '\n' then none
    else if tailDelim rest then some (acc ++ [c])
    else lazyContent (acc ++ [c]) rest

/-- Greedy `\s+` before the group: try the longest whitespace prefix first,
backtracking to shorter ones. `nws` is the length currently tried. -/
def wsSplit (l : List Char) : Nat → Option (List Char)
  | 0 => none
  | Nat.succ k =>
    match lazyContent [] (l.drop (k + 1)) with
    | some g => some g
    | none => wsSplit l k

/-- Does the whole pattern match with `about` anchored at the start of `l`?
Returns the captured topic if so. -/
def aboutAt (l : List Char) : Option (List Char) :=
  if ['a', 'b', 'o', 'u', 't'].isPrefixOf l then
    let rest := l.drop 5
    let m := wsRun rest
    if m = 0 then none else wsSplit rest m
  else none

/-- `re.search`: the leftmost start position admitting a full match wins. -/
def reSearchAbout : List Char → Option (List Char)
  | [] => none
  | l@(_ :: rest) =>
    match aboutAt l with
    | some g => some g
    | none => reSearchAbout rest

/-- The search-query rewriting of the chat handler (lines 1035–1049).
The summary and specific-topic branches form an `if`/`elif`; the
image-intent branch then assigns `search_query` from the *original*
`user_query` again, discarding any earlier rewrite. -/
def rewriteQuery (q : String) : String :=
  let ql := (strLower q)
  let sq :=
    if matchesAny ql summaryTerms then
      q ++ " main content overview summary website purpose"
    else if matchesAny ql specificTerms then
      match reSearchAbout ql.toList with
      | some topic => q ++ " " ++ String.mk topic ++ " details information"
      | none => q
    else q
  if matchesAny ql imageTerms then
    q ++ " visual visual_content image picture photo figure"
  else sq

/-! ## Source targeting and answering (chat handler, lines 1015–1132) -/

/-- `domain.lower() in user_query.lower()` for one indexed URL
(lines 1021–1023). -/
def domainMatches (query url : String) : Bool :=
  strContains (strLower query) (strLower (get_domain url))

/-- The website-selection logic (lines 1020–1027): the loop takes the
*first* URL whose domain occurs in the query and breaks; the
`if target_website` truthiness test treats an empty-string URL like no
target. -/
def selectWebsites (urls : List String) (query : String) : List String :=
  match urls.find? (fun u => domainMatches query u) with
  | some u => if u = "" then urls else [u]
  | none => urls

/-- One retrieved chunk as the chat handler sees it: its page content and
its `section` metadata tag. -/
structure RetrievedDoc where
  content : String
  sectionLabel : String
deriving DecidableEq, Repr

/-- One indexed website in session state: its URL, the stored metadata
title, and its vector search (a black-box capability: the list of documents
retrieval returns for a search query, whether by `max_marginal_relevance_search`
or by the `similarity_search` fallback). -/
structure Site where
  url : String
  title : String
  search : String → List RetrievedDoc

/-- The websites the chat handler searches, as `Site`s (same logic as
`selectWebsites`). -/
def selectSites (sites : List Site) (query : String) : List Site :=
  match sites.find? (fun s => domainMatches query s.url) with
  | some s => if s.url = "" then sites else [s]
  | none => sites

/-- The fixed section emission order of context assembly (line 1075). -/
def sectionOrderList : List String :=
  ["title", "description", "headings", "main_content", "tables", "lists", "unknown"]

/-- One source's context block (lines 1064–1084): a `SOURCE`/`TITLE` header,
then for each section label in the fixed order that has retrieved chunks,
either only the first chunk (title, description) or all of them joined by
newlines. -/
def buildSourceContext (url title : String) (docs : List RetrievedDoc) : String :=
  let base := "SOURCE: " ++ get_domain url ++ "\nTITLE: " ++ title ++ "\n\n"
  sectionOrderList.foldl (fun acc name =>
    match (docs.filter (fun d => d.sectionLabel == name)).map (fun d => d.content) with
    | [] => acc
    | c :: cs =>
      if name == "title" || name == "description" then acc ++ c ++ "\n\n"
      else acc ++ String.intercalate "\n" (c :: cs) ++ "\n\n") base

/-- The fixed insufficient-information response (line 1087). -/
def insufficientMsg : String :=
  "I don't have enough information to answer this question based on the websites you've provided. Could you rephrase your question or provide more websites with relevant information?"

/-- Separator between the context blocks of distinct sources (line 1112). -/
def contextSeparator : String := "\n\n=====WEBSITE INFORMATION=====\n\n"

/-- What the chat handler does with the retrieval results: either the fixed
message with no completion call, or a call of the completion capability
(`query_groq`) on the assembled context. -/
inductive ChatOutcome where
  | fixedMessage (text : String)
  | completionCall (context : String)

/-- The retrieval-and-answer decision of the chat handler (lines 1015–1119):
select the websites to search, search each with the rewritten query, keep
the sources that returned at least one document, and either produce the
fixed insufficient-information message with an empty source set or hand the
joined context to the completion capability. Returns the outcome and the
contributing source URLs. -/
def chatRespond (sites : List Site) (q : String) : ChatOutcome × List String :=
  let targets := selectSites sites q
  let searched := targets.map (fun s => (s, s.search (rewriteQuery q)))
  let contributing := searched.filter (fun p => !p.2.isEmpty)
  if contributing.isEmpty then (.fixedMessage insufficientMsg, [])
  else
    (.completionCall (String.intercalate contextSeparator
        (contributing.map (fun p => buildSourceContext p.1.url p.1.title p.2))),
     contributing.map (fun p => p.1.url))

/-! ## Batch ingestion (url submit handler, lines 841–911) -/

/-- One indexed chunk document (lines 880–892). -/
structure ChunkDoc where
  content : String
  source : String
  domain : String
  docTitle : String
  sectionLabel : String
  chunkId : Nat
deriving DecidableEq, Repr

/-- The documents built for one source: each chunk tagged with its section
label (via `sectionOf`) and its sequential index. -/
def buildDocuments (url mtitle : String) (chunks : List String) : List ChunkDoc :=
  chunks.enum.map fun p =>
    { content := p.2, source := url, domain := get_domain url, docTitle := mtitle,
      sectionLabel := sectionOf p.2, chunkId := p.1 }

/-- Everything the batch loop consumes for one submitted URL: the URL
itself, the outcome of `extract_website_content` (content and metadata
title on success, the raised message on failure), the chunk list the text
splitter produces from the content, and the outcome of the embedding /
vector-store build step. -/
structure ProcessInput where
  url : String
  extract : Except String (String × String)
  chunks : List String
  indexBuild : Except String Unit

/-- The body of the `try` block for one URL (lines 846–907), with the
`except` clause made explicit: `.error (url, message)` is a recorded
per-source processing error, `.ok (url, documents)` a successfully indexed
website. A zero-chunk split raises `ValueError("No content could be
extracted")` (line 862). -/
def processUrl (inp : ProcessInput) : Except (String × String) (String × List ChunkDoc) :=
  if !is_valid_url inp.url then .error (inp.url, "Invalid URL format")
  else
    match inp.extract with
    | .error msg => .error (inp.url, msg)
    | .ok (_content, mtitle) =>
      if inp.chunks.isEmpty then .error (inp.url, "No content could be extracted")
      else
        match inp.indexBuild with
        | .error msg => .error (inp.url, msg)
        | .ok _ => .ok (inp.url, buildDocuments inp.url mtitle inp.chunks)

/-- The state the batch loop accumulates: `st.session_state.websites` and
`st.session_state.processing_errors`, both reset to empty before the loop. -/
structure BatchResult where
  websites : List (String × List ChunkDoc)
  procErrors : List (String × String)
deriving DecidableEq, Repr

/-- The batch loop over all submitted URLs (lines 841–911): each URL is
processed in order; an error for one URL is caught, recorded, and the loop
continues with the next URL. -/
def processBatch (inputs : List ProcessInput) : BatchResult :=
  inputs.foldl (fun st inp =>
    match processUrl inp with
    | .ok entry => { st with websites := st.websites ++ [entry] }
    | .error entry => { st with procErrors := st.procErrors ++ [entry] })
    ⟨[], []⟩

/-! ## Claim C8 — image relevance ranking -/

theorem overlapCount_empty (qt : List String) : overlapCount qt "" = 0 := by
  have h : wordSet "" = [] := rfl
  unfold overlapCount
  rw [h, List.filter_eq_nil_iff.mpr (fun a _ => by simp)]
  rfl

/-- The guarded score accumulation equals the plain weighted-overlap
formula: a skipped empty field contributes a zero overlap anyway. -/
theorem scoreImage_formula (q : String) (img : SavedImage) :
    scoreImage q img =
      2 * overlapCount (wordSet q) img.info.altText
      + 2 * overlapCount (wordSet q) img.info.caption
      + 3 * overlapCount (wordSet q) img.info.heading
      + overlapCount (wordSet q) img.info.surroundingText := by
  unfold scoreImage
  by_cases h1 : img.info.altText = "" <;>
    by_cases h2 : img.info.caption = "" <;>
      by_cases h3 : img.info.heading = "" <;>
        by_cases h4 : img.info.surroundingText = "" <;>
          simp [h1, h2, h3, h4, overlapCount_empty]

theorem mem_insertByScore (x p : SavedImage × Nat) (l : List (SavedImage × Nat)) :
    x ∈ insertByScore p l ↔ x = p ∨ x ∈ l := by
  induction l with
  | nil => simp [insertByScore]
  | cons r rest ih =>
    unfold insertByScore
    by_cases h : p.2 ≥ r.2
    · simp [h]
    · simp only [h, if_false, List.mem_cons, ih]
      tauto

theorem mem_sortByScoreDesc (x : SavedImage × Nat) (l : List (SavedImage × Nat)) :
    x ∈ sortByScoreDesc l ↔ x ∈ l := by
  induction l with
  | nil => simp [sortByScoreDesc]
  | cons p rest ih => simp [sortByScoreDesc, mem_insertByScore, ih]

theorem mem_scoredImages (q : String) (imgs : List SavedImage) (p : SavedImage × Nat)
    (hp : p ∈ scoredImages q imgs) :
    p.1 ∈ imgs ∧ p.2 = scoreImage q p.1 ∧ 0 < p.2 := by
  unfold scoredImages at hp
  obtain ⟨hp1, hp2⟩ := List.mem_filter.mp hp
  obtain ⟨i, hi, rfl⟩ := List.mem_map.mp hp1
  exact ⟨hi, rfl, by simpa using hp2⟩

theorem insertByScore_sorted (p : SavedImage × Nat) (l : List (SavedImage × Nat))
    (h : l.Pairwise (fun a b => b.2 ≤ a.2)) :
    (insertByScore p l).Pairwise (fun a b => b.2 ≤ a.2) := by
  induction l with
  | nil => simp [insertByScore]
  | cons r rest ih =>
    rw [List.pairwise_cons] at h
    obtain ⟨hr, hrest⟩ := h
    unfold insertByScore
    by_cases hpr : p.2 ≥ r.2
    · rw [if_pos hpr, List.pairwise_cons]
      refine ⟨?_, List.pairwise_cons.mpr ⟨hr, hrest⟩⟩
      intro b hb
      rcases List.mem_cons.mp hb with rfl | hb
      · exact hpr
      · exact le_trans (hr b hb) hpr
    · rw [if_neg hpr, List.pairwise_cons]
      refine ⟨?_, ih hrest⟩
      intro b hb
      rcases (mem_insertByScore b p rest).mp hb with rfl | hb
      · omega
      · exact hr b hb

theorem sortByScoreDesc_sorted (l : List (SavedImage × Nat)) :
    (sortByScoreDesc l).Pairwise (fun a b => b.2 ≤ a.2) := by
  induction l with
  | nil => simp [sortByScoreDesc]
  | cons p rest ih => exact insertByScore_sorted p _ ih

/-- Stability of the insertion step: the score-`s` class of the result is
the score-`s` class of the input, with `p` in front when it has score `s`
(the insertion point lies before every element `p`'s score reaches). -/
theorem insertByScore_filter (p : SavedImage × Nat) (l : List (SavedImage × Nat)) (s : Nat) :
    (insertByScore p l).filter (fun x => x.2 == s)
      = if p.2 = s then p :: l.filter (fun x => x.2 == s)
        else l.filter (fun x => x.2 == s) := by
  induction l with
  | nil =>
    by_cases h : p.2 = s
    · simp [insertByScore, List.filter, h]
    · have hb : (p.2 == s) = false := beq_eq_false_iff_ne.mpr h
      simp [insertByScore, List.filter, hb, h]
  | cons r rest ih =>
    unfold insertByScore
    by_cases hpr : p.2 ≥ r.2
    · rw [if_pos hpr]
      by_cases hps : p.2 = s <;> by_cases hrs : r.2 = s <;>
        simp [List.filter_cons, hps, hrs]
    · rw [if_neg hpr, List.filter_cons]
      by_cases hps : p.2 = s
      · have hrs : ¬(r.2 = s) := by omega
        simp [hps, hrs, ih, List.filter_cons]
      · by_cases hrs : r.2 = s <;> simp [hps, hrs, ih, List.filter_cons]

/-- Stability of the whole sort: equal-score elements keep their relative
order, so each score class of the sorted list is the score class of the
input list unchanged. -/
theorem sortByScoreDesc_filter (l : List (SavedImage × Nat)) (s : Nat) :
    (sortByScoreDesc l).filter (fun x => x.2 == s) = l.filter (fun x => x.2 == s) := by
  induction l with
  | nil => rfl
  | cons p rest ih =>
    show (insertByScore p (sortByScoreDesc rest)).filter (fun x => x.2 == s) = _
    rw [insertByScore_filter, ih, List.filter_cons]
    by_cases h : p.2 = s <;> simp [h]

/-- C8: the ranker returns at most `limit` images (the handler's default is
3); the score is the stated weighted overlap of lowercase word sets;
returned images come from the input with positive score; the output is
ordered by non-increasing score; and each score class of the output is a
sublist of the same score class of the input, i.e. ties keep their original
order. -/
theorem C8_image_ranking (q : String) (imgs : List SavedImage) (limit : Nat) :
    (find_relevant_images q imgs limit).length ≤ limit ∧
    (∀ img, scoreImage q img =
        2 * overlapCount (wordSet q) img.info.altText
      + 2 * overlapCount (wordSet q) img.info.caption
      + 3 * overlapCount (wordSet q) img.info.heading
      + overlapCount (wordSet q) img.info.surroundingText) ∧
    (∀ i ∈ find_relevant_images q imgs limit, i ∈ imgs ∧ 0 < scoreImage q i) ∧
    (find_relevant_images q imgs limit).Pairwise
      (fun a b => scoreImage q b ≤ scoreImage q a) ∧
    (∀ s : Nat, ((find_relevant_images q imgs limit).filter
        (fun i => scoreImage q i == s)).Sublist
      (imgs.filter (fun i => scoreImage q i == s))) := by
  refine ⟨?_, fun img => scoreImage_formula q img, ?_, ?_, ?_⟩
  · unfold find_relevant_images
    rw [List.length_map, List.length_take]
    exact min_le_left _ _
  · intro i hi
    unfold find_relevant_images at hi
    obtain ⟨p, hp, rfl⟩ := List.mem_map.mp hi
    have hp' : p ∈ scoredImages q imgs :=
      (mem_sortByScoreDesc p _).mp (List.mem_of_mem_take hp)
    obtain ⟨h1, h2, h3⟩ := mem_scoredImages q imgs p hp'
    exact ⟨h1, h2 ▸ h3⟩
  · unfold find_relevant_images
    rw [List.pairwise_map]
    have hsorted : ((sortByScoreDesc (scoredImages q imgs)).take limit).Pairwise
        (fun a b => b.2 ≤ a.2) :=
      List.Pairwise.sublist (List.take_sublist _ _) (sortByScoreDesc_sorted _)
    refine hsorted.imp_of_mem ?_
    intro a b ha hb hab
    have ha' := (mem_scoredImages q imgs a
      ((mem_sortByScoreDesc a _).mp (List.mem_of_mem_take ha))).2.1
    have hb' := (mem_scoredImages q imgs b
      ((mem_sortByScoreDesc b _).mp (List.mem_of_mem_take hb))).2.1
    rw [← ha', ← hb']
    exact hab
  · intro s
    unfold find_relevant_images
    rw [List.filter_map]
    have hc : (((sortByScoreDesc (scoredImages q imgs)).take limit).filter
          ((fun i => scoreImage q i == s) ∘ Prod.fst))
        = (((sortByScoreDesc (scoredImages q imgs)).take limit).filter
          (fun x => x.2 == s)) := by
      apply List.filter_congr
      intro x hx
      have hx2 := (mem_scoredImages q imgs x
        ((mem_sortByScoreDesc x _).mp (List.mem_of_mem_take hx))).2.1
      show (scoreImage q x.1 == s) = (x.2 == s)
      rw [hx2]
    rw [hc]
    have chain : ((((sortByScoreDesc (scoredImages q imgs)).take limit).filter
          (fun x => x.2 == s))).Sublist
        ((imgs.map (fun i => (i, scoreImage q i))).filter (fun x => x.2 == s)) := by
      have h1 := (List.take_sublist limit
        (sortByScoreDesc (scoredImages q imgs))).filter (fun x => x.2 == s)
      rw [sortByScoreDesc_filter] at h1
      refine h1.trans ?_
      unfold scoredImages
      rw [List.filter_comm]
      exact List.filter_sublist _
    have hR : ((imgs.map (fun i => (i, scoreImage q i))).filter
        (fun x => x.2 == s)).map Prod.fst = imgs.filter (fun i => scoreImage q i == s) := by
      rw [List.filter_map, List.map_map]
      show (imgs.filter (fun i => scoreImage q i == s)).map (fun i => i)
          = imgs.filter (fun i => scoreImage q i == s)
      simp
    have := chain.map Prod.fst
    rw [hR] at this
    exact this

/-- C8 witness: `C8_image_ranking` on a two-image input: the matching image
is returned, is drawn from the input, and has positive score. -/
theorem C8_image_ranking_witness :
    (⟨⟨"u", "red fox", "", "", ""⟩, "p", "red fox"⟩ : SavedImage)
        ∈ [(⟨⟨"u", "red fox", "", "", ""⟩, "p", "red fox"⟩ : SavedImage)] ∧
    0 < scoreImage "a fox photo"
        (⟨⟨"u", "red fox", "", "", ""⟩, "p", "red fox"⟩ : SavedImage) :=
  (C8_image_ranking "a fox photo"
      [⟨⟨"u", "red fox", "", "", ""⟩, "p", "red fox"⟩] 3).2.2.1
    ⟨⟨"u", "red fox", "", "", ""⟩, "p", "red fox"⟩ (by decide)

/-! ## Claim C7 — empty retrieval context -/

/-- C7: when no searched source returns at least one retrieved chunk, the
chat handler produces exactly the fixed insufficient-information message
with an empty contributing-sources set, and the completion capability
(`query_groq`) is not invoked: the outcome is `fixedMessage`, never
`completionCall`. -/
theorem C7_empty_context (sites : List Site) (q : String)
    (h : ∀ s ∈ selectSites sites q, s.search (rewriteQuery q) = []) :
    chatRespond sites q = (.fixedMessage insufficientMsg, []) := by
  have hfilter : ((selectSites sites q).map
        (fun s => (s, s.search (rewriteQuery q)))).filter (fun p => !p.2.isEmpty) = [] := by
    rw [List.filter_eq_nil_iff]
    intro p hp
    obtain ⟨s, hs, rfl⟩ := List.mem_map.mp hp
    simp [h s hs]
  simp only [chatRespond]
  rw [hfilter]
  simp

/-- C7 witness: `C7_empty_context` on one indexed site whose retrieval
returns nothing. -/
theorem C7_empty_context_witness :
    chatRespond [⟨"https://a.com/x", "T", fun _ => []⟩] "hello there"
      = (.fixedMessage insufficientMsg, []) :=
  C7_empty_context [⟨"https://a.com/x", "T", fun _ => []⟩] "hello there"
    (by
      intro s hs
      rw [show selectSites [⟨"https://a.com/x", "T", fun _ => []⟩] "hello there"
          = [⟨"https://a.com/x", "T", fun _ => []⟩] from rfl] at hs
      rw [List.mem_singleton.mp hs])

/-! ## Claim C9 — batch error isolation -/

/-- The recorded error of one URL's processing, if any. -/
def urlError (i : ProcessInput) : Option (String × String) :=
  match processUrl i with
  | .ok _ => none
  | .error e => some e

/-- The batch fold, from any starting state, appends exactly the per-URL
dispositions: each URL's contribution depends only on its own input. -/
theorem processBatch_go (inputs : List ProcessInput) (st : BatchResult) :
    inputs.foldl (fun st inp =>
      match processUrl inp with
      | .ok entry => { st with websites := st.websites ++ [entry] }
      | .error entry => { st with procErrors := st.procErrors ++ [entry] }) st
    = ⟨st.websites ++ inputs.filterMap (fun i => (processUrl i).toOption),
       st.procErrors ++ inputs.filterMap urlError⟩ := by
  induction inputs generalizing st with
  | nil => simp
  | cons i rest ih =>
    rw [List.foldl_cons]
    cases hp : processUrl i with
    | ok entry =>
      rw [ih]
      simp [List.filterMap_cons, hp, Except.toOption, urlError]
    | error entry =>
      rw [ih]
      simp [List.filterMap_cons, hp, Except.toOption, urlError]

/-- C9: the batch always completes, with the successful sources and the
per-source error map each a pointwise function of the individual inputs
(so one source's failure never affects the others); in particular a source
whose text yields zero chunks gets the empty-content error recorded against
it while the rest of the batch proceeds. -/
theorem C9_batch_isolation (inputs : List ProcessInput) :
    (processBatch inputs).websites
        = inputs.filterMap (fun i => (processUrl i).toOption) ∧
    (processBatch inputs).procErrors = inputs.filterMap urlError ∧
    ∀ i ∈ inputs, ∀ content mtitle,
      is_valid_url i.url = true → i.extract = .ok (content, mtitle) → i.chunks = [] →
        (i.url, "No content could be extracted") ∈ (processBatch inputs).procErrors := by
  have hgo := processBatch_go inputs ⟨[], []⟩
  have hw : (processBatch inputs).websites
      = inputs.filterMap (fun i => (processUrl i).toOption) := by
    rw [show processBatch inputs = _ from hgo]
    simp
  have he : (processBatch inputs).procErrors = inputs.filterMap urlError := by
    rw [show processBatch inputs = _ from hgo]
    simp
  refine ⟨hw, he, ?_⟩
  intro i hi content mtitle hv hex hch
  rw [he]
  apply List.mem_filterMap.mpr
  refine ⟨i, hi, ?_⟩
  have hpu : processUrl i = .error (i.url, "No content could be extracted") := by
    unfold processUrl
    rw [hv, hex, hch]
    simp
  rw [urlError, hpu]

/-- C9 witness: `C9_batch_isolation` on a batch whose single source
extracts successfully but yields zero chunks. -/
theorem C9_batch_isolation_witness :
    ("https://a.com/x", "No content could be extracted")
      ∈ (processBatch [⟨"https://a.com/x", .ok ("", "T"), [], .ok ()⟩]).procErrors :=
  (C9_batch_isolation [⟨"https://a.com/x", .ok ("", "T"), [], .ok ()⟩]).2.2
    ⟨"https://a.com/x", .ok ("", "T"), [], .ok ()⟩ (by simp) "" "T" (by decide) rfl rfl

/-! ## Claim C1 — section labels -/

/-- C1 (counterexample): the fallback content for a short page is a single
text which contains the literal marker `"MAIN CONTENT:"` yet is labelled
`title`, not `main_content`, because the `"TITLE:"` marker is tested first.
(With the minimum chunk size 200, the splitter returns such a short
assembled text as one chunk.) -/
theorem C1_counterexample :
    strContains (fallbackContent "A" "B") "MAIN CONTENT:" = true ∧
    sectionOf (fallbackContent "A" "B") = "title" ∧
    sectionOf (fallbackContent "A" "B") ≠ "main_content" := by decide

/-- C1 (amended): a chunk containing `"MAIN CONTENT:"` and none of the
higher-priority markers `"TITLE:"`, `"DESCRIPTION:"`, `"HEADINGS:"` is
labelled `main_content`; and every document built during indexing carries
the label computed from its own chunk text alone (so the label of a chunk is
independent of every other chunk). -/
theorem C1_section_label (c : String)
    (h1 : strContains c "TITLE:" = false)
    (h2 : strContains c "DESCRIPTION:" = false)
    (h3 : strContains c "HEADINGS:" = false)
    (h4 : strContains c "MAIN CONTENT:" = true) :
    sectionOf c = "main_content" ∧
    ∀ url mtitle chunks d, d ∈ buildDocuments url mtitle chunks →
      d.sectionLabel = sectionOf d.content := by
  refine ⟨by simp [sectionOf, h1, h2, h3, h4], ?_⟩
  intro url mtitle chunks d hd
  simp only [buildDocuments, List.mem_map] at hd
  obtain ⟨p, _, rfl⟩ := hd
  rfl

/-- C1 witness: `C1_section_label` at a concrete chunk. -/
theorem C1_section_label_witness :
    sectionOf "MAIN CONTENT:\nsome body text" = "main_content" :=
  (C1_section_label "MAIN CONTENT:\nsome body text"
    (by decide) (by decide) (by decide) (by decide)).1

/-! ## Claim C2 — source targeting -/

/-- C2 (counterexample): a question containing the domains of *two* indexed
sources is claimed to search all sources; the code instead restricts the
search to the first matching source. -/
theorem C2_counterexample :
    domainMatches "compare a.com with b.org" "https://a.com/page" = true ∧
    domainMatches "compare a.com with b.org" "https://b.org/page" = true ∧
    selectWebsites ["https://a.com/page", "https://b.org/page"] "compare a.com with b.org"
      = ["https://a.com/page"] ∧
    selectWebsites ["https://a.com/page", "https://b.org/page"] "compare a.com with b.org"
      ≠ ["https://a.com/page", "https://b.org/page"] := by decide

/-- C2 (amended): if no indexed domain occurs in the question, all indexed
sources are searched; if the question contains the domain of at least one
indexed source, the search is restricted to the first such source in
indexing order (in particular, to the unique one when exactly one domain
matches). -/
theorem C2_target_selection (urls : List String) (q : String) :
    ((∀ u ∈ urls, domainMatches q u = false) → selectWebsites urls q = urls) ∧
    (∀ pre u post, urls = pre ++ u :: post →
      (∀ v ∈ pre, domainMatches q v = false) →
      domainMatches q u = true → u ≠ "" →
      selectWebsites urls q = [u]) := by
  constructor
  · intro hall
    have hfind : urls.find? (fun u => domainMatches q u) = none :=
      List.find?_eq_none.mpr (by intro x hx; simp [hall x hx])
    simp [selectWebsites, hfind]
  · intro pre u post hurls hpre hu hne
    subst hurls
    have hfind : (pre ++ u :: post).find? (fun v => domainMatches q v) = some u := by
      induction pre with
      | nil => simp [List.find?_cons_of_pos, hu]
      | cons a as ih =>
        have ha : domainMatches q a = false := hpre a (by simp)
        simpa [List.find?_cons_of_neg, ha] using
          ih (fun v hv => hpre v (by simp [hv]))
    simp [selectWebsites, hfind, hne]

/-- C2 witness: `C2_target_selection` at a concrete source list and
question whose text contains the (single) indexed domain. -/
theorem C2_target_selection_witness :
    selectWebsites ["https://a.com/page"] "what does a.com say" = ["https://a.com/page"] :=
  (C2_target_selection ["https://a.com/page"] "what does a.com say").2
    [] "https://a.com/page" [] rfl (by intro v hv; cases hv) (by decide) (by decide)

/-! ## Claim C3 — query rewrites -/

/-- C3 (counterexample): a question matching both summary-intent and
image-intent keywords is claimed to yield a search query containing both the
summary terms and the visual terms; the code's image branch rebuilds the
query from the original question, so the summary terms are dropped. -/
theorem C3_counterexample :
    matchesAny (strLower "summary show me") summaryTerms = true ∧
    matchesAny (strLower "summary show me") imageTerms = true ∧
    rewriteQuery "summary show me"
      = "summary show me visual visual_content image picture photo figure" ∧
    strContains (rewriteQuery "summary show me")
      "main content overview summary website purpose" = false := by decide

/-- C3 (amended): the summary and specific-topic rewrites are mutually
exclusive with summary checked first, but the image-intent rewrite is not
additive: when the image keywords match, the search query is the original
question with only the visual terms appended, discarding any summary or
specific-topic rewrite. -/
theorem C3_query_rewrites (q : String) :
    (matchesAny (strLower q) imageTerms = true →
      rewriteQuery q = q ++ " visual visual_content image picture photo figure") ∧
    (matchesAny (strLower q) imageTerms = false →
      matchesAny (strLower q) summaryTerms = true →
      rewriteQuery q = q ++ " main content overview summary website purpose") ∧
    (matchesAny (strLower q) imageTerms = false →
      matchesAny (strLower q) summaryTerms = false →
      matchesAny (strLower q) specificTerms = false →
      rewriteQuery q = q) := by
  refine ⟨fun h1 => ?_, fun h1 h2 => ?_, fun h1 h2 h3 => ?_⟩
  · simp [rewriteQuery, h1]
  · simp [rewriteQuery, h1, h2]
  · simp [rewriteQuery, h1, h2, h3]

/-- C3 witness: `C3_query_rewrites` on an image-intent question. -/
theorem C3_query_rewrites_witness :
    rewriteQuery "show me the picture"
      = "show me the picture visual visual_content image picture photo figure" :=
  (C3_query_rewrites "show me the picture").1 (by decide)

/-! ## Claim C4 — extraction contract -/

theorem str_append_assoc (a b c : String) : a ++ b ++ c = a ++ (b ++ c) := by
  apply String.ext
  rw [String.data_append, String.data_append, String.data_append, String.data_append,
    List.append_assoc]

theorem isPrefixOf_append_self (l t : List Char) : l.isPrefixOf (l ++ t) = true := by
  induction l with
  | nil => cases t <;> rfl
  | cons c cs ih => simp [List.isPrefixOf, ih]

theorem hasSubList_of_isPrefixOf (pat l : List Char) (h : pat.isPrefixOf l = true) :
    hasSubList pat l = true := by
  cases l with
  | nil =>
    cases pat with
    | nil => rfl
    | cons c cs => simp [List.isPrefixOf] at h
  | cons c rest => simp [hasSubList, h]

theorem hasSubList_middle (pat pre post : List Char) :
    hasSubList pat (pre ++ (pat ++ post)) = true := by
  induction pre with
  | nil => exact hasSubList_of_isPrefixOf _ _ (isPrefixOf_append_self pat post)
  | cons a as ih => simp [hasSubList, ih]

/-- A string built around `mid` contains `mid` as a substring. -/
theorem strContains_middle (pre mid post : String) :
    strContains (pre ++ mid ++ post) mid = true := by
  unfold strContains
  have hd : (pre ++ mid ++ post).toList = pre.toList ++ (mid.toList ++ post.toList) := by
    show (pre ++ mid ++ post).data = _
    rw [String.data_append, String.data_append, List.append_assoc]
    rfl
  rw [hd]
  exact hasSubList_middle _ _ _

theorem pre_append_ne_empty (pre : String) (hpre : pre.length ≠ 0) (a b : String) :
    pre ++ a ++ b ≠ "" := by
  intro h
  have hl := congrArg String.length h
  rw [String.length_append, String.length_append, String.length_empty] at hl
  omega

theorem fallbackContent_ne_empty (title body : String) : fallbackContent title body ≠ "" := by
  have h7 : ("TITLE: " : String).length = 7 := rfl
  exact pre_append_ne_empty "TITLE: " (by omega) _ _

theorem degradedContent_ne_empty (title mainText : String) :
    degradedContent title mainText ≠ "" := by
  have h7 : ("TITLE: " : String).length = 7 := rfl
  exact pre_append_ne_empty "TITLE: " (by omega) _ _

theorem string_append_eq_empty_iff (a b : String) : a ++ b = "" ↔ a = "" ∧ b = "" := by
  constructor
  · intro h
    have hd := congrArg String.data h
    rw [String.data_append] at hd
    have := List.append_eq_nil.mp hd
    exact ⟨String.ext this.1, String.ext this.2⟩
  · rintro ⟨rfl, rfl⟩
    rfl

theorem seg_empty_elim {c : Prop} [Decidable c] {seg : String} (hseg : seg ≠ "")
    (h : (if c then seg else "") = "") : ¬c := by
  intro hc
  rw [if_pos hc] at h
  exact hseg h

/-- The enriched content block is empty exactly when every assembled field
is empty. -/
theorem enhancedContent_eq_empty_iff (title description : String) (headings : List String)
    (mainText : String) (tables lists : List String) :
    enhancedContent title description headings mainText tables lists = "" ↔
      title = "" ∧ description = "" ∧ headings = [] ∧ mainText = "" ∧
        tables = [] ∧ lists = [] := by
  constructor
  · intro h
    unfold enhancedContent at h
    rw [string_append_eq_empty_iff] at h
    obtain ⟨h', h6⟩ := h
    rw [string_append_eq_empty_iff] at h'
    obtain ⟨h', h5⟩ := h'
    rw [string_append_eq_empty_iff] at h'
    obtain ⟨h', h4⟩ := h'
    rw [string_append_eq_empty_iff] at h'
    obtain ⟨h', h3⟩ := h'
    rw [string_append_eq_empty_iff] at h'
    obtain ⟨h1, h2⟩ := h'
    have n1 := seg_empty_elim (pre_append_ne_empty "TITLE: " (by decide) title "\n\n") h1
    have n2 := seg_empty_elim
      (pre_append_ne_empty "DESCRIPTION: " (by decide) description "\n\n") h2
    have n3 := seg_empty_elim
      (pre_append_ne_empty "HEADINGS:\n" (by decide) (String.intercalate "\n" headings) "\n\n") h3
    have n4 := seg_empty_elim
      (pre_append_ne_empty "MAIN CONTENT:\n" (by decide) mainText "\n\n") h4
    have n5 := seg_empty_elim
      (pre_append_ne_empty "TABLES:\n" (by decide) (String.intercalate "\n\n" tables) "\n\n") h5
    have n6 := seg_empty_elim
      (pre_append_ne_empty "LISTS:\n" (by decide) (String.intercalate "\n\n" lists) "\n\n") h6
    exact ⟨not_not.mp n1, not_not.mp n2, not_not.mp n3, not_not.mp n4,
      not_not.mp n5, not_not.mp n6⟩
  · rintro ⟨rfl, rfl, rfl, rfl, rfl, rfl⟩
    rfl

/-- C4 (counterexample): on a valid URL with a responsive server, when the
article reader succeeds but yields an empty title and empty text and the
enrichment pass finds no description, headings, tables or lists,
`extract_website_content` returns empty content with success status. -/
theorem C4_counterexample :
    extract_website_content "https://example.com/" (.parsed ⟨"", ""⟩)
      (.ok ⟨[], "", "", [], [], none, none⟩) (.err "unused") = .ok "" ∧
    is_valid_url "https://example.com/" = true := ⟨rfl, rfl⟩

/-- C4 (amended): for a valid URL, every failure of
`extract_website_content` carries a message naming the URL and happens only
when the article-reader strategy failed; when the article reader fails with
an `ArticleException` and the raw-markup fallback succeeds, the result is
non-empty content; when the article reader succeeds and the enrichment
fetch fails, the result is non-empty content; but on the fully successful
path the returned enriched content is empty (with success status) exactly
when the title, article text, description, headings, tables and lists are
all empty. -/
theorem C4_extract_contract (url : String) (art : ArticleOutcome)
    (enrich fallbackFetch : FetchOutcome) (hv : is_valid_url url = true) :
    (∀ msg, extract_website_content url art enrich fallbackFetch = .error msg →
        strContains msg url = true ∧ ∀ a, art ≠ .parsed a) ∧
    (∀ em p, art = .articleErr em → fallbackFetch = .ok p →
        ∃ c, extract_website_content url art enrich fallbackFetch = .ok c ∧ c ≠ "") ∧
    (∀ a msg, art = .parsed a → enrich = .err msg →
        ∃ c, extract_website_content url art enrich fallbackFetch = .ok c ∧ c ≠ "") ∧
    (∀ a p, art = .parsed a → enrich = .ok p →
        extract_website_content url art enrich fallbackFetch
            = .ok (enhancedContent a.title p.description p.headings (clean_text a.text)
                p.tables p.lists) ∧
          (enhancedContent a.title p.description p.headings (clean_text a.text)
              p.tables p.lists = "" ↔
            a.title = "" ∧ p.description = "" ∧ p.headings = [] ∧
              clean_text a.text = "" ∧ p.tables = [] ∧ p.lists = [])) := by
  refine ⟨?_, ?_, ?_, ?_⟩
  · intro msg hmsg
    cases art with
    | parsed a =>
      exfalso
      cases enrich <;> simp [extract_website_content, hv] at hmsg
    | articleErr em =>
      cases fallbackFetch with
      | ok p => exfalso; simp [extract_website_content, hv] at hmsg
      | err fe =>
        simp only [extract_website_content, hv, Bool.not_true, Bool.false_eq_true,
          if_false, Except.error.injEq] at hmsg
        subst hmsg
        constructor
        · rw [str_append_assoc]
          exact strContains_middle "Failed to extract content from " url (": " ++ fe)
        · intro a h; cases h
    | otherErr em =>
      simp only [extract_website_content, hv, Bool.not_true, Bool.false_eq_true,
        if_false, Except.error.injEq] at hmsg
      subst hmsg
      constructor
      · rw [str_append_assoc]
        exact strContains_middle "Failed to extract content from " url (": " ++ em)
      · intro a h; cases h
  · rintro em p rfl rfl
    exact ⟨fallbackContent (p.titleTag.getD "Unknown Title") ((p.body.map clean_text).getD ""),
      by simp [extract_website_content, hv], fallbackContent_ne_empty _ _⟩
  · rintro a msg rfl rfl
    exact ⟨degradedContent a.title (clean_text a.text),
      by simp [extract_website_content, hv], degradedContent_ne_empty _ _⟩
  · rintro a p rfl rfl
    exact ⟨by simp [extract_website_content, hv],
      enhancedContent_eq_empty_iff a.title p.description p.headings (clean_text a.text)
        p.tables p.lists⟩

/-- C4 witness: `C4_extract_contract` on a concrete article-reader failure
with a successful raw-markup fallback: non-empty content is returned. -/
theorem C4_extract_contract_witness :
    ∃ c, extract_website_content "https://e.com/" (.articleErr "boom")
        (.err "unused") (.ok ⟨[], "", "", [], [], some "T", some "B"⟩) = .ok c ∧ c ≠ "" :=
  (C4_extract_contract "https://e.com/" (.articleErr "boom") (.err "unused")
      (.ok ⟨[], "", "", [], [], some "T", some "B"⟩) (by decide)).2.1 "boom"
    ⟨[], "", "", [], [], some "T", some "B"⟩ rfl rfl

/-! ## Claim C6 — Content-Length over 5 MiB -/

/-- C6: an image download whose response declares any `Content-Length`
greater than 5 MiB (for example 6291456, i.e. 6 MiB) is rejected — no cache
path is returned — regardless of the other header and dimension values. -/
theorem C6_content_length_reject (resp : ImgResponse) (filename : String) (n : Int)
    (hn : resp.contentLength = some n) (hgt : 5 * 1024 * 1024 < n) :
    download_and_save_image resp filename = none := by
  unfold download_and_save_image
  rw [hn]
  by_cases h1 : resp.ok
  · by_cases h2 : strStartsWith resp.contentType "image/"
    · simp [h1, h2]
      intro hle
      exact absurd hle (by omega)
    · simp [h1, h2]
  · simp [h1]

/-- C6 witness: `C6_content_length_reject` at the claim's example value
`Content-Length: 6291456`, on a response with a valid image content type
and valid dimensions. -/
theorem C6_content_length_reject_witness :
    download_and_save_image ⟨true, "image/png", some 6291456, some (100, 100)⟩ "f.png"
      = none :=
  C6_content_length_reject ⟨true, "image/png", some 6291456, some (100, 100)⟩ "f.png"
    6291456 rfl (by decide)

/-! ## Claim C5 — image pipeline invariants -/

/-- All the validation checks `download_and_save_image` performs before a
cache path is produced: request success, image content type, declared size
within 5 MiB, and pixel dimensions within `[50, 3000] × [50, 3000]`. -/
def passedValidation (r : ImgResponse) : Prop :=
  r.ok = true ∧ strStartsWith r.contentType "image/" = true ∧
    r.contentLength.getD 0 ≤ 5 * 1024 * 1024 ∧
    ∃ w h, r.dims = some (w, h) ∧ 50 ≤ w ∧ w ≤ 3000 ∧ 50 ≤ h ∧ h ≤ 3000

/-- A returned cache path certifies that every validation check passed. -/
theorem download_some_implies (r : ImgResponse) (fn p : String)
    (h : download_and_save_image r fn = some p) :
    passedValidation r ∧ p = "image_cache/" ++ fn := by
  obtain ⟨ok, ct, cl, dims⟩ := r
  cases ok with
  | false => simp [download_and_save_image] at h
  | true =>
    cases hct : strStartsWith ct "image/" with
    | false => simp [download_and_save_image, hct] at h
    | true =>
      cases dims with
      | none => simp [download_and_save_image, hct] at h
      | some wh =>
        obtain ⟨w, ht⟩ := wh
        simp [download_and_save_image, hct] at h
        obtain ⟨hcl, ⟨⟨⟨hw1, hh1⟩, hw2⟩, hh2⟩, hp⟩ := h
        exact ⟨⟨rfl, hct, by simpa using hcl, ⟨w, ht, rfl, hw1, hw2, hh1, hh2⟩⟩, hp.symm⟩

/-- The accepting loop equals taking the first `10 - count` accepted
candidates in encounter order. -/
theorem extractImagesGo_eq (md5hex : String → String) (url : String) (elems : List ImgElem)
    (count : Nat) :
    extractImagesGo md5hex url elems count
      = (elems.filterMap (acceptElem md5hex url)).take (10 - count) := by
  induction elems generalizing count with
  | nil => simp [extractImagesGo]
  | cons e rest ih =>
    rw [extractImagesGo]
    by_cases hc : count ≥ 10
    · have h0 : 10 - count = 0 := by omega
      rw [if_pos hc, h0]
      simp
    · rw [if_neg hc]
      cases ha : acceptElem md5hex url e with
      | none =>
        rw [List.filterMap_cons_none ha]
        exact ih count
      | some s =>
        have h10 : 10 - count = (10 - (count + 1)) + 1 := by omega
        rw [List.filterMap_cons_some ha, h10, List.take_succ_cons]
        show s :: extractImagesGo md5hex url rest (count + 1)
            = s :: (rest.filterMap (acceptElem md5hex url)).take (10 - (count + 1))
        rw [ih (count + 1)]

/-- C5: the image pipeline returns at most 10 images; the returned list is
exactly the first (up to) 10 accepted candidates in first-encountered order
after filtering; and every returned image carries a cache path that was set
only after the download passed the content-type, Content-Length and pixel
dimension checks. -/
theorem C5_image_pipeline (md5hex : String → String) (url : String) (elems : List ImgElem) :
    (extract_images_from_website md5hex url elems).length ≤ 10 ∧
    extract_images_from_website md5hex url elems
      = (elems.filterMap (acceptElem md5hex url)).take 10 ∧
    ∀ s ∈ extract_images_from_website md5hex url elems,
      ∃ e ∈ elems, e.info = some s.info ∧ passedValidation e.resp ∧
        s.localPath = "image_cache/" ++ generate_image_filename md5hex url s.info.url := by
  have heq : extract_images_from_website md5hex url elems
      = (elems.filterMap (acceptElem md5hex url)).take 10 :=
    extractImagesGo_eq md5hex url elems 0
  refine ⟨?_, heq, ?_⟩
  · rw [heq, List.length_take]
    exact min_le_left _ _
  · intro s hs
    rw [heq] at hs
    obtain ⟨e, he, hacc⟩ := List.mem_filterMap.mp (List.mem_of_mem_take hs)
    refine ⟨e, he, ?_⟩
    cases hinfo : e.info with
    | none =>
      simp only [acceptElem, hinfo] at hacc
      exact Option.noConfusion hacc
    | some info =>
      simp only [acceptElem, hinfo] at hacc
      cases hdl : download_and_save_image e.resp (generate_image_filename md5hex url info.url)
        with
      | none =>
        simp only [hdl] at hacc
        exact Option.noConfusion hacc
      | some path =>
        simp only [hdl] at hacc
        obtain ⟨hval, hpath⟩ := download_some_implies _ _ _ hdl
        injection hacc with hacc
        subst hacc
        exact ⟨rfl, hval, hpath⟩

/-- C5 witness: `C5_image_pipeline` on a one-candidate page whose download
passes all checks. -/
theorem C5_image_pipeline_witness :
    ∃ e ∈ [(⟨some ⟨"https://e.com/i.png", "alt", "", "", ""⟩,
              ⟨true, "image/png", some 1000, some (100, 200)⟩⟩ : ImgElem)],
      e.info = some (⟨⟨"https://e.com/i.png", "alt", "", "", ""⟩,
          "image_cache/aaaaaaaaaa_aaaaaaaa.png", "alt"⟩ : SavedImage).info ∧
      passedValidation e.resp ∧
      (⟨⟨"https://e.com/i.png", "alt", "", "", ""⟩,
          "image_cache/aaaaaaaaaa_aaaaaaaa.png", "alt"⟩ : SavedImage).localPath
        = "image_cache/" ++ generate_image_filename (fun _ => "aaaaaaaaaaaaaaaa")
            "https://e.com/page" "https://e.com/i.png" :=
  (C5_image_pipeline (fun _ => "aaaaaaaaaaaaaaaa") "https://e.com/page"
      [⟨some ⟨"https://e.com/i.png", "alt", "", "", ""⟩,
        ⟨true, "image/png", some 1000, some (100, 200)⟩⟩]).2.2
    ⟨⟨"https://e.com/i.png", "alt", "", "", ""⟩,
      "image_cache/aaaaaaaaaa_aaaaaaaa.png", "alt"⟩ (by decide)

/-! ## Claim C10 — missing Content-Length header -/

/-- C10: when the download response has no `Content-Length` header, the code
reads the declared length as 0, so the 5 MiB guard passes vacuously and the
image is written to the cache and accepted whenever the content-type and
pixel-dimension checks pass. -/
theorem C10_missing_content_length (resp : ImgResponse) (filename : String)
    (hok : resp.ok = true) (hlen : resp.contentLength = none)
    (hct : strStartsWith resp.contentType "image/" = true)
    (w h : Nat) (hdims : resp.dims = some (w, h))
    (hw1 : 50 ≤ w) (hw2 : w ≤ 3000) (hh1 : 50 ≤ h) (hh2 : h ≤ 3000) :
    download_and_save_image resp filename = some ("image_cache/" ++ filename) := by
  unfold download_and_save_image
  rw [hok, hct, hlen, hdims]
  have hdim : (decide (w < 50) || decide (h < 50) || decide (w > 3000) || decide (h > 3000))
      = false := by simp; omega
  simp [hdim]

/-- C10 witness: `C10_missing_content_length` on a concrete header-less
response. -/
theorem C10_missing_content_length_witness :
    download_and_save_image ⟨true, "image/jpeg", none, some (800, 600)⟩ "g.jpg"
      = some "image_cache/g.jpg" :=
  C10_missing_content_length ⟨true, "image/jpeg", none, some (800, 600)⟩ "g.jpg"
    rfl rfl rfl 800 600 rfl (by decide) (by decide) (by decide) (by decide)

/-! ## Sanity checks on the embedding

Concrete evaluations of the embedded functions, matching the behaviour of
the corresponding Python code on the same inputs. -/

example : sectionOf "MAIN CONTENT:\nhello world" = "main_content" := by decide

example : sectionOf "no markers here" = "unknown" := by decide

example : sectionOf "TITLE: A\n\nMAIN CONTENT:\nB" = "title" := by decide

example :
    extract_website_content "https://example.com/" (.parsed ⟨"T", "body text"⟩)
      (.err "timeout") (.err "x") = .ok "TITLE: T\n\nMAIN CONTENT:\nbody text" := rfl

example : reSearchAbout "tell me about cats in boxes".toList = some "cats".toList := by decide

example : reSearchAbout "what does it say about pricing".toList = some "pricing".toList := by
  decide

example : reSearchAbout "no marker here".toList = none := by decide

example : reSearchAbout "about a.b? yes".toList = some "a.b? yes".toList := by decide

example : reSearchAbout "roundabout topics in here".toList = some "topics".toList := by decide

example : get_domain "https://Example.com/path?x=1" = "Example.com" := by decide

example : is_valid_url "https://example.com/" = true ∧ is_valid_url "example.com" = false ∧
    is_valid_url "https://" = false := by decide

example : clean_text "  a\n\n\nb  c \n" = "a\nb c" := by decide

example :
    find_relevant_images "a fox photo"
      [⟨⟨"u1", "grey wolf", "", "", ""⟩, "p1", "grey wolf"⟩,
       ⟨⟨"u2", "red fox", "", "", ""⟩, "p2", "red fox"⟩,
       ⟨⟨"u3", "", "a fox photo shoot", "", ""⟩, "p3", "a fox photo shoot"⟩]
      3
    = [⟨⟨"u3", "", "a fox photo shoot", "", ""⟩, "p3", "a fox photo shoot"⟩,
       ⟨⟨"u2", "red fox", "", "", ""⟩, "p2", "red fox"⟩] := by decide

example : rewriteQuery "give me an overview"
    = "give me an overview main content overview summary website purpose" := by decide
